import Mathlib

/-
Verification development for the medical lab-report processing pipeline:
TextPreprocessor, MedicalTestNormalizer, GuardrailService, MedicalProcessor
and the batch route aggregation.

Modelling conventions (shallow embedding):
  - JavaScript strings are modelled as `List Char` (`Str`); the JS regular
    expression operations used by the code are implemented as explicit,
    executable backtracking matchers mirroring the exact patterns.
  - JS numbers are modelled as rationals; all numeric literals of the code
    are decimal, and all comparisons in the claims are against the same
    literals, so rational arithmetic is the standard shallow model.
  - Character predicates are the ASCII restriction of the JS classes
    (lab-report text is ASCII).
  - Wall-clock fields (timestamps, processing_time) are elided: they are
    opaque strings never inspected by any claim.
-/

namespace MedPipeline

abbrev Str := List Char

def strL (s : String) : Str := s.data

def lowerStr (s : Str) : Str := s.map Char.toLower

/-- ASCII restriction of the JS whitespace class backslash-s. -/
def isWS (c : Char) : Bool :=
  c = ' ' || c = '\t' || c = '\n' || c = '\r' || c = '\x0b' || c = '\x0c'

/-- JS word character class: letters, digits and underscore. -/
def isWordChar (c : Char) : Bool := c.isAlphanum || c = '_'

/-- JS String.prototype.includes: substring test. -/
def strIncludes : Str → Str → Bool
  | [], n => n.isEmpty
  | c :: cs, n => n.isPrefixOf (c :: cs) || strIncludes cs n

/-
The left-to-right scanning functions below consume at least one input
character per step, so recursion on a fuel of input length plus one is
exact; fuel keeps them structurally recursive, which lets concrete runs
reduce inside the kernel.
-/

/-- Collapse every maximal whitespace run to one space (replace of
the whitespace-run pattern by a single space, global). -/
def collapseWSF : ℕ → Str → Str
  | 0, _ => []
  | _ + 1, [] => []
  | f + 1, c :: cs =>
    if isWS c then ' ' :: collapseWSF f (cs.dropWhile isWS)
    else c :: collapseWSF f cs

def collapseWS (s : Str) : Str := collapseWSF (s.length + 1) s

/-- JS String.prototype.trim restricted to ASCII whitespace. -/
def trimWS (s : Str) : Str :=
  ((s.dropWhile isWS).reverse.dropWhile isWS).reverse

def jsSplitGo : ℕ → Str → Str → List Str
  | 0, cur, _ => [cur.reverse]
  | _ + 1, cur, [] => [cur.reverse]
  | f + 1, cur, c :: cs =>
    if isWS c then cur.reverse :: jsSplitGo f [] (cs.dropWhile isWS)
    else jsSplitGo f (c :: cur) cs

/-- JS str.split on the whitespace-run pattern: maximal whitespace runs
separate pieces; a leading or trailing run contributes an empty piece, and
the empty string yields one empty piece. -/
def jsSplitWS (s : Str) : List Str := jsSplitGo (s.length + 1) [] s

def digitsToNat (s : Str) : ℕ :=
  s.foldl (fun a c => 10 * a + (c.toNat - '0'.toNat)) 0

/-- Decimal digit string of a natural number. -/
def natToStr (n : ℕ) : Str := Nat.toDigits 10 n

/-- JS parseFloat restricted to the character set it can receive here
(the value group of the test patterns after comma removal contains only
digits and dots): longest prefix of the form digits [ dot digits ];
no digits at all means NaN, modelled as none. -/
def parseFloatQ (s : Str) : Option ℚ :=
  let ip := s.takeWhile Char.isDigit
  let r1 := s.drop ip.length
  match r1 with
  | '.' :: r2 =>
    let fp := r2.takeWhile Char.isDigit
    if ip = [] ∧ fp = [] then none
    else some ((digitsToNat ip : ℚ) +
      (digitsToNat fp : ℚ) / ((10 ^ fp.length : ℕ) : ℚ))
  | _ => if ip = [] then none else some ((digitsToNat ip : ℚ))

/-- Remove the first occurrence of a character
(JS str.replace with a one-character string pattern). -/
def removeFirst (c : Char) : Str → Str
  | [] => []
  | x :: xs => if x = c then xs else x :: removeFirst c xs

/-- Smallest exponent k below the bound with den dividing 10 ^ k. -/
def decExp (den : ℕ) : Option ℕ :=
  (List.range 40).find? (fun k => den ∣ 10 ^ k)

/-- Pad a digit string on the left with zeros up to the given length. -/
def padZeros (n : ℕ) (s : Str) : Str :=
  List.replicate (n - s.length) '0' ++ s

/-- JS Number.prototype.toString for the nonnegative finite-decimal
rationals produced by parseFloatQ: canonical decimal without trailing
zeros, no decimal point for integers.  Values whose denominator divides
no power of ten below the search bound cannot arise from parsing; a
placeholder is returned for totality. -/
def ratToString (q : ℚ) : Str :=
  let sign : Str := if q < 0 then ['-'] else []
  let n := q.num.natAbs
  let d := q.den
  match decExp d with
  | none => strL "?"
  | some k =>
    if k = 0 then sign ++ natToStr (n / d)
    else
      let m := n * 10 ^ k / d
      let ds := padZeros (k + 1) (natToStr m)
      sign ++ (ds.take (ds.length - k) ++ '.' :: ds.drop (ds.length - k))

/-- JS Number.prototype.toFixed 2: round to the nearest hundredth,
ties to the larger value, print with exactly two fraction digits. -/
def toFixed2 (q : ℚ) : Str :=
  let n : ℤ := ⌊q * 100 + 1 / 2⌋
  let sign : Str := if n < 0 then ['-'] else []
  let a := n.natAbs
  sign ++ natToStr (a / 100) ++ '.' :: padZeros 2 (natToStr (a % 100))

/-- Insert en-US thousands separators into a digit string. -/
def groupThousands (s : Str) : Str :=
  ((s.reverse.toChunks 3).intersperse [','] ).flatten.reverse

/-- JS Number.prototype.toLocaleString under the en-US default locale:
grouped integer part, at most three rounded fraction digits with trailing
zeros dropped.  (Used only inside the hallucination explanation, whose
content no claim inspects.) -/
def toLocaleStr (q : ℚ) : Str :=
  let sign : Str := if q < 0 then ['-'] else []
  let a : ℕ := (⌊|q| * 1000 + 1 / 2⌋).natAbs
  let ipart := groupThousands (natToStr (a / 1000))
  let fdigits := (padZeros 3 (natToStr (a % 1000))).reverse.dropWhile (· = '0')
  sign ++ ipart ++ (if fdigits = [] then [] else '.' :: fdigits.reverse)

/-! ## Word-boundary replacement

JS `processed.replace(new RegExp("\\b" + key + "\\b", "gi"), val)` for the
literal keys of the preprocessor tables.  A word boundary holds at a
position when exactly one of its two neighbouring characters is a word
character.  Matching is case-insensitive; scanning is left to right and
continues after each replaced span; boundary context is taken from the
original string.  Keys containing a caret never match: inside a JS
pattern an unescaped caret is a start anchor, which cannot succeed after
the preceding literal characters have consumed input. -/

def wordy : Option Char → Bool
  | none => false
  | some c => isWordChar c

/-- Case-insensitive literal-prefix test (keys are lowercase). -/
def ciPre (key rest : Str) : Bool :=
  (rest.take key.length).map Char.toLower == key

/-- Boundary-delimited case-insensitive match of the key at the head of
rest, with prev the original character just before it. -/
def wbMatchAt (key : Str) (prev : Option Char) (rest : Str) : Bool :=
  match key with
  | [] => false
  | k0 :: _ =>
    ciPre key rest &&
    (wordy prev != isWordChar k0) &&
    (match key.getLast? with
     | none => false
     | some kl => isWordChar kl != wordy rest[key.length]?)

def replaceWBGo (key val : Str) : ℕ → Option Char → Str → Str
  | 0, _, _ => []
  | _ + 1, _, [] => []
  | f + 1, prev, c :: cs =>
    if wbMatchAt key prev (c :: cs) then
      val ++ replaceWBGo key val f (some (((c :: cs).take key.length).getLastD c))
        (List.drop (key.length - 1) cs)
    else c :: replaceWBGo key val f (some c) cs

def replaceWB (key val s : Str) : Str :=
  if strIncludes key ['^'] then s else replaceWBGo key val (s.length + 1) none s

def applyRules (rules : List (Str × Str)) (s : Str) : Str :=
  rules.foldl (fun acc kv => replaceWB kv.1 kv.2 acc) s

/-! ## TextPreprocessor tables (text-preprocessor source, in Map insertion
order) -/

def medicalTermCorrections : List (Str × Str) :=
  [ (strL "hemglobin", strL "hemoglobin"),
    (strL "hemogoblin", strL "hemoglobin"),
    (strL "haemoglobin", strL "hemoglobin"),
    (strL "hgb", strL "hemoglobin"),
    (strL "wbc", strL "WBC"),
    (strL "rbc", strL "RBC"),
    (strL "hct", strL "hematocrit"),
    (strL "mcv", strL "MCV"),
    (strL "mch", strL "MCH"),
    (strL "mchc", strL "MCHC"),
    (strL "rdw", strL "RDW"),
    (strL "plt", strL "platelets"),
    (strL "platlets", strL "platelets"),
    (strL "platletes", strL "platelets"),
    (strL "gluc", strL "glucose"),
    (strL "glu", strL "glucose"),
    (strL "chol", strL "cholesterol"),
    (strL "cholestrol", strL "cholesterol"),
    (strL "triglyce", strL "triglycerides"),
    (strL "hdl", strL "HDL"),
    (strL "ldl", strL "LDL"),
    (strL "tsh", strL "TSH"),
    (strL "t4", strL "T4"),
    (strL "t3", strL "T3"),
    (strL "bun", strL "BUN"),
    (strL "creat", strL "creatinine"),
    (strL "creatinin", strL "creatinine"),
    (strL "alt", strL "ALT"),
    (strL "ast", strL "AST"),
    (strL "alp", strL "ALP"),
    (strL "bil", strL "bilirubin"),
    (strL "bilirub", strL "bilirubin"),
    (strL "hgh", strL "high"),
    (strL "hi", strL "high"),
    (strL "hig", strL "high"),
    (strL "lo", strL "low"),
    (strL "lw", strL "low"),
    (strL "norm", strL "normal"),
    (strL "norma", strL "normal"),
    (strL "g/dl", strL "g/dL"),
    (strL "mg/dl", strL "mg/dL"),
    (strL "ug/dl", strL "ug/dL"),
    (strL "ul", strL "uL"),
    (strL "/ul", strL "/uL"),
    (strL "mm3", strL "/uL"),
    (strL "cells/ul", strL "/uL"),
    (strL "10^3/ul", strL "K/uL"),
    (strL "k/ul", strL "K/uL"),
    (strL "m/ul", strL "M/uL"),
    (strL "x10^3", strL "K/uL"),
    (strL "x10^6", strL "M/uL") ]

def unitNormalizations : List (Str × Str) :=
  [ (strL "g/dl", strL "g/dL"),
    (strL "mg/dl", strL "mg/dL"),
    (strL "ug/dl", strL "ug/dL"),
    (strL "ng/dl", strL "ng/dL"),
    (strL "pg/dl", strL "pg/dL"),
    (strL "ul", strL "uL"),
    (strL "/ul", strL "/uL"),
    (strL "mm3", strL "/uL"),
    (strL "cells/ul", strL "/uL"),
    (strL "10^3/ul", strL "K/uL"),
    (strL "k/ul", strL "K/uL"),
    (strL "m/ul", strL "M/uL"),
    (strL "x10^3", strL "K/uL"),
    (strL "x10^6", strL "M/uL"),
    (strL "mm/hr", strL "mm/hr"),
    (strL "mg/l", strL "mg/L"),
    (strL "ug/l", strL "ug/L"),
    (strL "ng/ml", strL "ng/mL"),
    (strL "pg/ml", strL "pg/mL"),
    (strL "iu/l", strL "IU/L"),
    (strL "u/l", strL "U/L"),
    (strL "mmol/l", strL "mmol/L"),
    (strL "umol/l", strL "umol/L") ]

/-! ## Punctuation normalization passes -/

/-- Replace the pattern open-paren ws* (high|low|normal) ws* close-paren by
the parenthesized captured word (global, case-insensitive).  The three
alternatives start with distinct letters, so at most one can match at a
given position and the alternation needs no backtracking. -/
def parenKeywords : List Str := [strL "high", strL "low", strL "normal"]

def keywordAt (r : Str) : Option (Str × Str) :=
  (parenKeywords.find? (fun kw => ciPre kw r)).map
    (fun kw => (r.take kw.length, r.drop kw.length))

def parenTry (cs : Str) : Option (Str × Str) :=
  match keywordAt (cs.dropWhile isWS) with
  | none => none
  | some (cap, r2) =>
    match r2.dropWhile isWS with
    | ')' :: r3 => some (cap, r3)
    | _ => none

def parenFixGo : ℕ → Str → Str
  | 0, _ => []
  | _ + 1, [] => []
  | f + 1, c :: cs =>
    if c = '(' then
      match parenTry cs with
      | some (cap, rest) => '(' :: (cap ++ ')' :: parenFixGo f rest)
      | none => c :: parenFixGo f cs
    else c :: parenFixGo f cs

def parenFix (s : Str) : Str := parenFixGo (s.length + 1) s

/-- Replace the pattern ws* p ws* with the character p followed by one
space (global); used with colon and comma.  A greedy leading ws-run must
be followed by the literal p for a match to start at a position. -/
def punctFixGo (p : Char) : ℕ → Str → Str
  | 0, _ => []
  | _ + 1, [] => []
  | f + 1, c :: cs =>
    match (c :: cs).dropWhile isWS with
    | q :: r2 =>
      if q = p then p :: ' ' :: punctFixGo p f (r2.dropWhile isWS)
      else c :: punctFixGo p f cs
    | [] => c :: punctFixGo p f cs

def punctFix (p : Char) (s : Str) : Str := punctFixGo p (s.length + 1) s

/-- TextPreprocessor.preprocessText: lowercase, collapse whitespace,
apply the misspelling corrections then the unit normalizations (each a
word-boundary global case-insensitive replacement, in table order), fix
status parentheses and spacing around colons and commas, and collapse
whitespace again. -/
def preprocessText (text : Str) : Str :=
  let p1 := trimWS (collapseWS (lowerStr text))
  let p2 := applyRules medicalTermCorrections p1
  let p3 := applyRules unitNormalizations p2
  let p4 := parenFix p3
  let p5 := punctFix ':' p4
  let p6 := punctFix ',' p5
  trimWS (collapseWS p6)

/-! ## Extraction pattern

The test pattern of extractTestsFromText:
name group, lazy, over letters, digits and whitespace;
separator, one or more whitespace-or-colon;
value group, greedy, over digits, commas and dots;
optional whitespace;
unit group, lazy, over letters, slash, caret, whitespace and hyphen;
optional status group: optional whitespace, an opening parenthesis,
one or more letters-or-whitespace, a closing parenthesis.

Backtracking order of the JS engine for this pattern: the name group
grows from its shortest length; the separator and value runs are forced
maximal because their character classes are disjoint from what follows;
the whitespace run before the unit is greedy and backtracks downwards;
the lazy unit group stops at its first character, because the optional
status group can always match empty and the pattern then completes. -/

structure RawMatch where
  name : Str
  value : Str
  unitStr : Str
  statusTok : Option Str
deriving DecidableEq, Repr

def inC1 (c : Char) : Bool := c.isAlphanum || isWS c

def inSep (c : Char) : Bool := isWS c || c = ':'

def inC2 (c : Char) : Bool := c.isDigit || c = ',' || c = '.'

def inC3 (c : Char) : Bool := c.isAlpha || c = '/' || c = '^' || isWS c || c = '-'

def inStatusC (c : Char) : Bool := c.isAlpha || isWS c

/-- The optional status group: whitespace run, opening parenthesis, a
greedy nonempty run of letters-or-whitespace, closing parenthesis.
Returns the captured status and the rest after the group. -/
def tryOpt (r : Str) : Option (Str × Str) :=
  match r.dropWhile isWS with
  | '(' :: r2 =>
    let st := r2.takeWhile inStatusC
    if st = [] then none
    else
      match r2.drop st.length with
      | ')' :: r3 => some (st, r3)
      | _ => none
  | _ => none

/-- Lazy unit group for the unanchored pattern: exactly one character of
its class, then the optional status group or nothing. -/
def tryG3 (name v : Str) (r : Str) : Option (RawMatch × Str) :=
  match r with
  | [] => none
  | c :: cs =>
    if inC3 c then
      match tryOpt cs with
      | some (st, rest2) => some (⟨name, v, [c], some st⟩, rest2)
      | none => some (⟨name, v, [c], none⟩, cs)
    else none

/-- Greedy whitespace run before the unit group, backtracking from the
maximal length down to zero. -/
def wsLoop (name v : Str) (r2 : Str) : ℕ → Option (RawMatch × Str)
  | 0 => tryG3 name v r2
  | k + 1 =>
    match tryG3 name v (r2.drop (k + 1)) with
    | some res => some res
    | none => wsLoop name v r2 k

/-- After a candidate name: the separator run (forced maximal, nonempty),
the value run (forced maximal, nonempty), then whitespace and unit. -/
def afterName (name rest : Str) : Option (RawMatch × Str) :=
  let sep := rest.takeWhile inSep
  if sep = [] then none
  else
    let r1 := rest.dropWhile inSep
    let v := r1.takeWhile inC2
    if v = [] then none
    else
      let r2 := r1.dropWhile inC2
      wsLoop name v r2 (r2.takeWhile isWS).length

/-- Lazy name group: try ending the name at each length, shortest first. -/
def g1Loop (acc : Str) : Str → Option (RawMatch × Str)
  | [] => none
  | c :: cs =>
    if inC1 c then
      match afterName (acc ++ [c]) cs with
      | some r => some r
      | none => g1Loop (acc ++ [c]) cs
    else none

def matchAt (s : Str) : Option (RawMatch × Str) := g1Loop [] s

/-- First match at or after the head of the string (regex exec scanning). -/
def findMatch : Str → Option (RawMatch × Str)
  | [] => none
  | c :: cs =>
    match matchAt (c :: cs) with
    | some r => some r
    | none => findMatch cs

/-- The global exec loop.  Fuel bounds the recursion; every match consumes
at least its four nonempty groups, so length-plus-one fuel is exact. -/
def execAll : ℕ → Str → List RawMatch
  | 0, _ => []
  | f + 1, s =>
    match findMatch s with
    | none => []
    | some (m, rest) => m :: execAll f rest

/-- TextPreprocessor.extractTestsFromText. -/
def extractTestsFromText (text : Str) : List Str :=
  let pre := preprocessText text
  let ms := execAll (pre.length + 1) pre
  let tests := ms.filterMap (fun m =>
    let cleanTestName := trimWS m.name
    let cleanValue := m.value.filter (· ≠ ',')
    let cleanUnit := trimWS m.unitStr
    let cleanStatus := match m.statusTok with
      | some st => trimWS st
      | none => []
    if cleanTestName ≠ [] ∧ cleanValue ≠ [] ∧ cleanUnit ≠ [] then
      some (trimWS (cleanTestName ++ ' ' :: cleanValue ++ ' ' :: cleanUnit ++
        (if cleanStatus ≠ [] then ' ' :: '(' :: cleanStatus ++ [')'] else [])))
    else none)
  let tests2 :=
    if tests = [] then
      let lines := (pre.splitOnP (fun c => c = ',' || c = ';' || c = '|' || c = '\n'))
      lines.filterMap (fun line =>
        let trimmed := trimWS line
        if trimmed ≠ [] ∧ trimmed.any Char.isDigit then some trimmed else none)
    else tests
  tests2.filter (fun t => 0 < t.length)

/-- TextPreprocessor.calculateCorruptionPenalty. -/
def calculateCorruptionPenalty (text : Str) : ℚ :=
  let words := jsSplitWS text
  let singleCharWords := (words.filter (fun w => w.length = 1)).length
  let totalWords := words.length
  if totalWords = 0 then 1 / 2
  else min ((singleCharWords : ℚ) / (totalWords : ℚ) * 2) (1 / 2)

/-- TextPreprocessor.calculateConfidence. -/
def calculateConfidence (originalText : Str) (extractedTests : List Str) : ℚ :=
  if extractedTests = [] then 0
  else
    let originalLower := lowerStr originalText
    let parts := extractedTests.flatMap jsSplitWS
    let totalElements := parts.length
    let matchingElements :=
      (parts.filter (fun part => strIncludes originalLower (lowerStr part))).length
    let baseConfidence :=
      if 0 < totalElements then (matchingElements : ℚ) / (totalElements : ℚ) else 0
    let testCountFactor := min ((extractedTests.length : ℚ) / 3) 1
    let corruptionPenalty := calculateCorruptionPenalty originalText
    max 0 (min 1 (baseConfidence * testCountFactor * (1 - corruptionPenalty)))

/-! ## Data model (shared schema) -/

inductive Status
  | low
  | normal
  | high
deriving DecidableEq, Repr

structure RefRange where
  low : ℚ
  high : ℚ
deriving DecidableEq, Repr

/-- A reference-range table entry: unit, optional sex-specific variants
and the population default (only the default is applied by the code). -/
structure RefInfo where
  unitStr : Str
  male : Option RefRange
  female : Option RefRange
  dflt : RefRange
deriving DecidableEq, Repr

structure NormalizedTest where
  name : Str
  value : ℚ
  unitStr : Str
  status : Status
  ref_range : RefRange
deriving DecidableEq, Repr

structure NormalizedTests where
  tests : List NormalizedTest
  normalization_confidence : ℚ
deriving DecidableEq, Repr

/-! ## MedicalTestNormalizer tables (normalizer source, Map insertion
order; keys are unique so associative lookup coincides with Map.get) -/

def testMappings : List (Str × Str) :=
  [ (strL "hemoglobin", strL "Hemoglobin"),
    (strL "hgb", strL "Hemoglobin"),
    (strL "haemoglobin", strL "Hemoglobin"),
    (strL "wbc", strL "WBC"),
    (strL "white blood cells", strL "WBC"),
    (strL "white blood cell count", strL "WBC"),
    (strL "leukocytes", strL "WBC"),
    (strL "rbc", strL "RBC"),
    (strL "red blood cells", strL "RBC"),
    (strL "red blood cell count", strL "RBC"),
    (strL "erythrocytes", strL "RBC"),
    (strL "platelets", strL "Platelets"),
    (strL "plt", strL "Platelets"),
    (strL "platelet count", strL "Platelets"),
    (strL "thrombocytes", strL "Platelets"),
    (strL "hematocrit", strL "Hematocrit"),
    (strL "hct", strL "Hematocrit"),
    (strL "haematocrit", strL "Hematocrit"),
    (strL "glucose", strL "Glucose"),
    (strL "blood glucose", strL "Glucose"),
    (strL "blood sugar", strL "Glucose"),
    (strL "glu", strL "Glucose"),
    (strL "cholesterol", strL "Total Cholesterol"),
    (strL "total cholesterol", strL "Total Cholesterol"),
    (strL "chol", strL "Total Cholesterol"),
    (strL "hdl", strL "HDL Cholesterol"),
    (strL "hdl cholesterol", strL "HDL Cholesterol"),
    (strL "high density lipoprotein", strL "HDL Cholesterol"),
    (strL "ldl", strL "LDL Cholesterol"),
    (strL "ldl cholesterol", strL "LDL Cholesterol"),
    (strL "low density lipoprotein", strL "LDL Cholesterol"),
    (strL "triglycerides", strL "Triglycerides"),
    (strL "tg", strL "Triglycerides"),
    (strL "trigs", strL "Triglycerides"),
    (strL "creatinine", strL "Creatinine"),
    (strL "creat", strL "Creatinine"),
    (strL "serum creatinine", strL "Creatinine"),
    (strL "bun", strL "BUN"),
    (strL "blood urea nitrogen", strL "BUN"),
    (strL "urea", strL "BUN"),
    (strL "alt", strL "ALT"),
    (strL "alanine aminotransferase", strL "ALT"),
    (strL "sgpt", strL "ALT"),
    (strL "ast", strL "AST"),
    (strL "aspartate aminotransferase", strL "AST"),
    (strL "sgot", strL "AST"),
    (strL "alp", strL "ALP"),
    (strL "alkaline phosphatase", strL "ALP"),
    (strL "bilirubin", strL "Total Bilirubin"),
    (strL "total bilirubin", strL "Total Bilirubin"),
    (strL "bil", strL "Total Bilirubin"),
    (strL "tsh", strL "TSH"),
    (strL "thyroid stimulating hormone", strL "TSH"),
    (strL "t4", strL "T4"),
    (strL "thyroxine", strL "T4"),
    (strL "free t4", strL "Free T4"),
    (strL "t3", strL "T3"),
    (strL "triiodothyronine", strL "T3"),
    (strL "free t3", strL "Free T3") ]

def mkRef (lo hi : ℚ) : RefRange := ⟨lo, hi⟩

def referenceRanges : List (Str × RefInfo) :=
  [ (strL "Hemoglobin",
      ⟨strL "g/dL", some (mkRef 13.8 17.2), some (mkRef 12.1 15.1), mkRef 12.0 16.0⟩),
    (strL "WBC", ⟨strL "/uL", none, none, mkRef 4000 11000⟩),
    (strL "RBC",
      ⟨strL "M/uL", some (mkRef 4.7 6.1), some (mkRef 4.2 5.4), mkRef 4.2 5.4⟩),
    (strL "Platelets", ⟨strL "K/uL", none, none, mkRef 150 450⟩),
    (strL "Hematocrit",
      ⟨strL "%", some (mkRef 41.0 50.0), some (mkRef 36.0 46.0), mkRef 36.0 46.0⟩),
    (strL "Glucose", ⟨strL "mg/dL", none, none, mkRef 70 100⟩),
    (strL "Total Cholesterol", ⟨strL "mg/dL", none, none, mkRef 0 200⟩),
    (strL "HDL Cholesterol",
      ⟨strL "mg/dL", some (mkRef 40 999), some (mkRef 50 999), mkRef 40 999⟩),
    (strL "LDL Cholesterol", ⟨strL "mg/dL", none, none, mkRef 0 100⟩),
    (strL "Triglycerides", ⟨strL "mg/dL", none, none, mkRef 0 150⟩),
    (strL "Creatinine",
      ⟨strL "mg/dL", some (mkRef 0.74 1.35), some (mkRef 0.59 1.04), mkRef 0.6 1.2⟩),
    (strL "BUN", ⟨strL "mg/dL", none, none, mkRef 6 20⟩),
    (strL "ALT",
      ⟨strL "U/L", some (mkRef 10 40), some (mkRef 7 35), mkRef 7 40⟩),
    (strL "AST", ⟨strL "U/L", none, none, mkRef 10 40⟩),
    (strL "ALP", ⟨strL "U/L", none, none, mkRef 44 147⟩),
    (strL "Total Bilirubin", ⟨strL "mg/dL", none, none, mkRef 0.3 1.2⟩),
    (strL "TSH", ⟨strL "mIU/L", none, none, mkRef 0.27 4.20⟩),
    (strL "T4", ⟨strL "ug/dL", none, none, mkRef 4.5 12.0⟩),
    (strL "Free T4", ⟨strL "ng/dL", none, none, mkRef 0.82 1.77⟩),
    (strL "T3", ⟨strL "ng/dL", none, none, mkRef 80 200⟩),
    (strL "Free T3", ⟨strL "pg/mL", none, none, mkRef 2.0 4.4⟩) ]

def unitConversions : List (Str × Str) :=
  [ (strL "g/dl", strL "g/dL"),
    (strL "gm/dl", strL "g/dL"),
    (strL "g%", strL "g/dL"),
    (strL "/ul", strL "/uL"),
    (strL "cells/ul", strL "/uL"),
    (strL "/mm3", strL "/uL"),
    (strL "cells/mm3", strL "/uL"),
    (strL "10^3/ul", strL "K/uL"),
    (strL "x10^3/ul", strL "K/uL"),
    (strL "k/ul", strL "K/uL"),
    (strL "mg/dl", strL "mg/dL"),
    (strL "ug/dl", strL "ug/dL"),
    (strL "ng/dl", strL "ng/dL"),
    (strL "pg/ml", strL "pg/mL"),
    (strL "ng/ml", strL "ng/mL"),
    (strL "ug/ml", strL "ug/mL"),
    (strL "mg/l", strL "mg/L"),
    (strL "u/l", strL "U/L"),
    (strL "iu/l", strL "IU/L"),
    (strL "miu/l", strL "mIU/L"),
    (strL "mmol/l", strL "mmol/L"),
    (strL "umol/l", strL "umol/L") ]

/-! ## Anchored test parse (normalizeIndividualTest pattern)

Same groups as the extraction pattern, but anchored at both ends and
with plain whitespace separators.  The end anchor makes the lazy unit
group grow until the optional status group, or nothing, reaches the end
of the string exactly. -/

structure ParsedTest where
  name : Str
  value : Str
  unitStr : Str
  statusTok : Option Str
deriving DecidableEq, Repr

/-- The optional status group followed by the end anchor: the group is
greedy, so a successful group parse that does not reach the end is not
retried as an empty group unless the rest was already empty. -/
def optEnd (r : Str) : Option (Option Str) :=
  match tryOpt r with
  | some (st, []) => some (some st)
  | some (_, _ :: _) => if r = [] then some none else none
  | none => if r = [] then some none else none

/-- Lazy unit group for the anchored pattern: grow from one character
until the tail parses to the end of the string. -/
def g3AnchLoop (acc : Str) : Str → Option (Str × Option Str)
  | [] => none
  | c :: cs =>
    if inC3 c then
      match optEnd cs with
      | some stOpt => some (acc ++ [c], stOpt)
      | none => g3AnchLoop (acc ++ [c]) cs
    else none

/-- Greedy whitespace separator before the unit group, backtracking from
the maximal run length down to one. -/
def sep2Loop (r2 : Str) : ℕ → Option (Str × Option Str)
  | 0 => none
  | k + 1 =>
    match g3AnchLoop [] (r2.drop (k + 1)) with
    | some res => some res
    | none => sep2Loop r2 k

def anchAfterName (name rest : Str) : Option ParsedTest :=
  let sep1 := rest.takeWhile isWS
  if sep1 = [] then none
  else
    let r1 := rest.dropWhile isWS
    let v := r1.takeWhile inC2
    if v = [] then none
    else
      let r2 := r1.dropWhile inC2
      match sep2Loop r2 (r2.takeWhile isWS).length with
      | some (g3, stOpt) => some ⟨name, v, g3, stOpt⟩
      | none => none

def anchG1Loop (acc : Str) : Str → Option ParsedTest
  | [] => none
  | c :: cs =>
    if inC1 c then
      match anchAfterName (acc ++ [c]) cs with
      | some r => some r
      | none => anchG1Loop (acc ++ [c]) cs
    else none

/-- The anchored match of the normalizer test pattern against an already
trimmed raw test string. -/
def parseTestString (s : Str) : Option ParsedTest := anchG1Loop [] s

/-! ## MedicalTestNormalizer operations -/

def normalizeTestName (rawName : Str) : Option Str :=
  List.lookup (trimWS (lowerStr rawName)) testMappings

def normalizeUnit (rawUnit : Str) : Str :=
  match List.lookup (trimWS (lowerStr rawUnit)) unitConversions with
  | some u => u
  | none => rawUnit

/-- MedicalTestNormalizer.normalizeIndividualTest. -/
def normalizeIndividualTest (rawTest : Str) : Option NormalizedTest :=
  match parseTestString (trimWS rawTest) with
  | none => none
  | some p =>
    match normalizeTestName (trimWS p.name) with
    | none => none
    | some testName =>
      match parseFloatQ (p.value.filter (· ≠ ',')) with
      | none => none
      | some value =>
        let unitN := normalizeUnit (trimWS p.unitStr)
        match List.lookup testName referenceRanges with
        | none => none
        | some referenceInfo =>
          let refRange := referenceInfo.dflt
          let status :=
            match p.statusTok with
            | some statusRaw =>
              let statusLower := trimWS (lowerStr statusRaw)
              if strIncludes statusLower (strL "low") ||
                 strIncludes statusLower (strL "l") then Status.low
              else if strIncludes statusLower (strL "high") ||
                      strIncludes statusLower (strL "h") then Status.high
              else Status.normal
            | none =>
              if value < refRange.low then Status.low
              else if refRange.high < value then Status.high
              else Status.normal
          some ⟨testName, value, unitN, status, refRange⟩

/-! ### IEEE-754 binary64 rounding

The confidence arithmetic of the normalizer runs on JS numbers, so the
literal 0.7, each bonus, every running sum and the final mean are doubles.
fl rounds an exact rational to the nearest binary64 value (ties to even);
the magnitudes reached here stay far from the subnormal and overflow
binades, which the search below therefore ignores. -/

/-- Integer part of a rational (the arguments here are nonnegative). -/
def floorQ (y : ℚ) : ℤ := y.num / (y.den : ℤ)

def pow2Z (e : ℤ) : ℚ :=
  if 0 ≤ e then ((2 ^ e.toNat : ℕ) : ℚ) else 1 / ((2 ^ (-e).toNat : ℕ) : ℚ)

/-- Round to the nearest integer, ties to even. -/
def flRound (y : ℚ) : ℤ :=
  if y - (floorQ y : ℚ) < 1 / 2 then floorQ y
  else if 1 / 2 < y - (floorQ y : ℚ) then floorQ y + 1
  else if floorQ y % 2 = 0 then floorQ y else floorQ y + 1

/-- Nearest binary64 value to a positive rational: find the binade
2 ^ e ≤ a < 2 ^ (e + 1) with e between -100 and 199, round the scaled
mantissa to 53 bits. -/
def flPos (a : ℚ) : ℚ :=
  match (List.range 300).find?
      (fun k => a.num * 2 ^ 100 < 2 ^ (k + 1) * (a.den : ℤ)) with
  | none => a
  | some k =>
    (flRound (a * pow2Z (52 - ((k : ℤ) - 100))) : ℚ) *
      pow2Z (((k : ℤ) - 100) - 52)

/-- JS number semantics of an exact rational: the nearest binary64
value. -/
def fl (x : ℚ) : ℚ :=
  if x = 0 then 0 else if 0 < x then flPos x else -flPos (-x)

/-- JS addition of doubles. -/
def fadd (x y : ℚ) : ℚ := fl (x + y)

/-- JS division of doubles. -/
def fdiv (x y : ℚ) : ℚ := fl (x / y)

/-- MedicalTestNormalizer.calculateTestConfidence: base 0.7, plus 0.15
when the canonical name appears in the original input, plus 0.1 when the
decimal value string appears, plus 0.05 when the unit appears, capped
at one; base, bonuses and running sums are IEEE-754 doubles. -/
def calculateTestConfidence (rawTest : Str) (normalized : NormalizedTest)
    (originalInput : Str) : ℚ :=
  let originalLower := lowerStr originalInput
  let c0 : ℚ := fl (7 / 10)
  let c1 : ℚ := if strIncludes originalLower (lowerStr normalized.name)
    then fadd c0 (fl (15 / 100)) else c0
  let c2 : ℚ := if strIncludes originalLower (ratToString normalized.value)
    then fadd c1 (fl (1 / 10)) else c1
  let c3 : ℚ := if strIncludes originalLower (lowerStr normalized.unitStr)
    then fadd c2 (fl (5 / 100)) else c2
  min 1 c3

/-- The successfully normalized raw tests paired with their results, in
input order (the loop of normalizeTests collects exactly these). -/
def normPairs (rawTests : List Str) : List (Str × NormalizedTest) :=
  rawTests.filterMap (fun raw => (normalizeIndividualTest raw).map (fun t => (raw, t)))

/-- MedicalTestNormalizer.normalizeTests: skip failures, accumulate the
per-test confidences over the successes in double arithmetic, divide by
the count (zero when none), clamp. -/
def normalizeTests (rawTests : List Str) (originalInput : Str) : NormalizedTests :=
  let pairs := normPairs rawTests
  let validTests := pairs.length
  let totalConfidence :=
    (pairs.map (fun pr => calculateTestConfidence pr.1 pr.2 originalInput)).foldl
      fadd 0
  let averageConfidence : ℚ :=
    if 0 < validTests then fdiv totalConfidence (validTests : ℚ) else 0
  ⟨pairs.map Prod.snd, max 0 (min 1 averageConfidence)⟩

/-! ## GuardrailService -/

structure SuspiciousEntry where
  test : Str
  value : ℚ
  reason : Str
deriving DecidableEq, Repr

/-- The details payload of a guardrail rejection, one constructor per
rejection rule (the key-value maps of the source, typed). -/
inductive RejDetails
  | lowConfidence (confidenceScore minimumRequired : ℚ)
  | tooMany (detectedTests maximumAllowed : ℕ)
  | tooFew (detectedTests minimumRequired : ℕ)
  | hallucinated (detectedHallucinations : List Str) (originalTests : List Str)
      (confidenceScore : ℚ)
  | validationError (confidenceScore : ℚ)
  | suspicious (suspiciousValues : List SuspiciousEntry) (confidenceScore : ℚ)
deriving DecidableEq, Repr

/-- An ErrorOutput: status unprocessed, a reason, and for guardrail
rejections a structured details payload (ISO timestamp elided). -/
structure ErrOut where
  reason : Str
  details : Option RejDetails
deriving DecidableEq, Repr

inductive Verdict
  | valid
  | rejected (error : ErrOut)
deriving DecidableEq, Repr

/-- The hallucination-explanation synonym table of
GuardrailService.detectHallucinatedTests. -/
def testVariants : List (Str × List Str) :=
  [ (strL "Hemoglobin", [strL "hemoglobin", strL "hgb", strL "haemoglobin"]),
    (strL "WBC", [strL "wbc", strL "white blood cells",
      strL "white blood cell count", strL "leukocytes"]),
    (strL "RBC", [strL "rbc", strL "red blood cells",
      strL "red blood cell count", strL "erythrocytes"]),
    (strL "Platelets", [strL "platelets", strL "plt",
      strL "platelet count", strL "thrombocytes"]),
    (strL "Hematocrit", [strL "hematocrit", strL "hct", strL "haematocrit"]),
    (strL "Glucose", [strL "glucose", strL "blood glucose",
      strL "blood sugar", strL "glu"]),
    (strL "Total Cholesterol", [strL "cholesterol", strL "total cholesterol",
      strL "chol"]),
    (strL "HDL Cholesterol", [strL "hdl", strL "hdl cholesterol",
      strL "high density lipoprotein"]),
    (strL "LDL Cholesterol", [strL "ldl", strL "ldl cholesterol",
      strL "low density lipoprotein"]),
    (strL "Triglycerides", [strL "triglycerides", strL "tg", strL "trigs"]),
    (strL "Creatinine", [strL "creatinine", strL "creat", strL "serum creatinine"]),
    (strL "BUN", [strL "bun", strL "blood urea nitrogen", strL "urea"]),
    (strL "ALT", [strL "alt", strL "alanine aminotransferase", strL "sgpt"]),
    (strL "AST", [strL "ast", strL "aspartate aminotransferase", strL "sgot"]),
    (strL "ALP", [strL "alp", strL "alkaline phosphatase"]),
    (strL "Total Bilirubin", [strL "bilirubin", strL "total bilirubin", strL "bil"]),
    (strL "TSH", [strL "tsh", strL "thyroid stimulating hormone"]),
    (strL "T4", [strL "t4", strL "thyroxine", strL "free t4"]),
    (strL "T3", [strL "t3", strL "triiodothyronine", strL "free t3"]) ]

/-- GuardrailService.detectHallucinatedTests: a normalized test is
flagged when no synonym of its canonical name appears in the lower-cased
original input, or when neither its plain, locale-formatted, nor
dot-stripped value string appears. -/
def detectHallucinatedTests (originalInput : Str)
    (normalizedTests : List NormalizedTest) : List Str :=
  let originalLower := lowerStr originalInput
  normalizedTests.filterMap (fun t =>
    let variants :=
      match List.lookup t.name testVariants with
      | some v => v
      | none => [lowerStr t.name]
    let valueString := ratToString t.value
    let valueWithCommas := toLocaleStr t.value
    let testNameFound := variants.any (fun v => strIncludes originalLower v)
    let valueFound := strIncludes originalLower valueString ||
      strIncludes originalLower valueWithCommas ||
      strIncludes originalLower (removeFirst '.' valueString)
    if !testNameFound || !valueFound then some t.name else none)

/-- The test-specific hard physiologic bounds of
GuardrailService.detectSuspiciousValues (the switch statement). -/
def hardBoundEntries (t : NormalizedTest) : List SuspiciousEntry :=
  if t.name == strL "Hemoglobin" then
    if 25 < t.value ∨ t.value < 1 then
      [⟨t.name, t.value, strL "value outside biologically possible range (1-25 g/dL)"⟩]
    else []
  else if t.name == strL "WBC" then
    if 100000 < t.value ∨ t.value < 100 then
      [⟨t.name, t.value,
        strL "value outside biologically possible range (100-100,000 /uL)"⟩]
    else []
  else if t.name == strL "Glucose" then
    if 1000 < t.value ∨ t.value < 10 then
      [⟨t.name, t.value,
        strL "value outside biologically possible range (10-1000 mg/dL)"⟩]
    else []
  else if t.name == strL "Total Cholesterol" then
    if 1000 < t.value ∨ t.value < 50 then
      [⟨t.name, t.value,
        strL "value outside biologically possible range (50-1000 mg/dL)"⟩]
    else []
  else if t.name == strL "Creatinine" then
    if 20 < t.value ∨ t.value < 0.1 then
      [⟨t.name, t.value,
        strL "value outside biologically possible range (0.1-20 mg/dL)"⟩]
    else []
  else []

/-- GuardrailService.detectSuspiciousValues: per test, a
nonpositive-value entry and then any test-specific hard-bound entry. -/
def detectSuspiciousValues (tests : List NormalizedTest) : List SuspiciousEntry :=
  tests.flatMap (fun t =>
    (if t.value ≤ 0 then
      [⟨t.name, t.value, strL "negative or zero value impossible for this test"⟩]
     else []) ++ hardBoundEntries t)

def MIN_CONFIDENCE_THRESHOLD : ℚ := 0.7

def MAX_TESTS_PER_REPORT : ℕ := 20

def MIN_TESTS_PER_REPORT : ℕ := 1

def confidenceReason (confidence : ℚ) : Str :=
  strL "confidence score " ++ toFixed2 confidence ++
    strL " below minimum threshold of 0.7"

def tooManyReason (n : ℕ) : Str :=
  strL "too many tests detected (" ++ natToStr n ++
    strL "), maximum allowed is 20"

def lowerBoundReason : Str := strL "no valid medical tests detected in input"

/-- GuardrailService.validateProcessing.  The hallucination oracle call
(openaiService.validateTestsAgainstInput) is a parameter: some b is the
boolean verdict and none is an exception, which the catch block converts
into the fail-closed validation system error rejection. -/
def validateProcessing (oracle : Option Bool) (originalInput : Str)
    (extractedTests : List Str) (normalizedTests : List NormalizedTest)
    (confidence : ℚ) : Verdict :=
  if confidence < MIN_CONFIDENCE_THRESHOLD then
    .rejected ⟨confidenceReason confidence,
      some (.lowConfidence confidence MIN_CONFIDENCE_THRESHOLD)⟩
  else if MAX_TESTS_PER_REPORT < normalizedTests.length then
    .rejected ⟨tooManyReason normalizedTests.length,
      some (.tooMany normalizedTests.length MAX_TESTS_PER_REPORT)⟩
  else if normalizedTests.length < MIN_TESTS_PER_REPORT then
    .rejected ⟨lowerBoundReason,
      some (.tooFew normalizedTests.length MIN_TESTS_PER_REPORT)⟩
  else
    match oracle with
    | none =>
      .rejected ⟨strL "validation system error", some (.validationError confidence)⟩
    | some false =>
      .rejected ⟨strL "hallucinated tests not present in input",
        some (.hallucinated (detectHallucinatedTests originalInput normalizedTests)
          extractedTests confidence)⟩
    | some true =>
      let suspiciousValues := detectSuspiciousValues normalizedTests
      if 0 < suspiciousValues.length then
        .rejected ⟨strL "suspicious or impossible test values detected",
          some (.suspicious suspiciousValues confidence)⟩
      else .valid

/-- Base64 shape test of validateInputFormat: a run of base64 characters
followed by at most two equals signs. -/
def isBase64 (s : Str) : Bool :=
  let core := s.takeWhile (fun c => c.isAlphanum || c = '+' || c = '/')
  let rest := s.drop core.length
  rest = [] || rest = ['='] || rest = ['=', '=']

/-- GuardrailService.validateInputFormat: none when valid, some error
message otherwise. -/
def validateInputFormat (inputType data : Str) : Option Str :=
  if inputType = [] ∨ data = [] then
    some (strL "Missing required fields: input_type and data")
  else if ¬(inputType = strL "text" ∨ inputType = strL "image") then
    some (strL "input_type must be either \x27text\x27 or \x27image\x27")
  else if inputType = strL "text" ∧ data.length < 10 then
    some (strL "Text input too short, minimum 10 characters required")
  else if inputType = strL "text" ∧ 10000 < data.length then
    some (strL "Text input too long, maximum 10,000 characters allowed")
  else if inputType = strL "image" ∧ ¬ isBase64 data then
    some (strL "Invalid base64 image data")
  else if inputType = strL "image" ∧
      (10 * 1024 * 1024 : ℚ) < (data.length : ℚ) * 3 / 4 then
    some (strL "Image too large, maximum 10MB allowed")
  else none

/-! ## MedicalProcessor pipeline -/

structure ProcessRequest where
  input_type : Str
  data : Str
deriving DecidableEq, Repr

structure OcrResult where
  tests_raw : List Str
  confidence : ℚ
deriving DecidableEq, Repr

structure PatientSummary where
  summary : Str
  explanations : List Str
deriving DecidableEq, Repr

structure FinalOutput where
  tests : List NormalizedTest
  summary : Str
  explanations : List Str
  confidence : ℚ
deriving DecidableEq, Repr

/-- The pipeline result: ok carries a FinalOutput (status ok), err an
ErrorOutput (status unprocessed). -/
inductive Output
  | ok (f : FinalOutput)
  | err (e : ErrOut)
deriving DecidableEq, Repr

/-- MedicalProcessor.extractText.  The OCR oracle
(openaiService.extractTextFromImage) is a parameter: some gives the
returned text and confidence, none an exception, which the catch block
converts to null. -/
def extractText (req : ProcessRequest) (ocrOracle : Option (Str × ℚ)) :
    Option OcrResult :=
  if req.input_type = strL "text" then
    let preprocessedText := preprocessText req.data
    let extractedTests := extractTestsFromText preprocessedText
    some ⟨extractedTests, calculateConfidence req.data extractedTests⟩
  else
    match ocrOracle with
    | none => none
    | some (text, ocrConfidence) =>
      let preprocessedText := preprocessText text
      let extractedTests := extractTestsFromText preprocessedText
      let extractionConfidence := calculateConfidence text extractedTests
      some ⟨extractedTests, (ocrConfidence + extractionConfidence) / 2⟩

/-- MedicalProcessor.processComplete, with the three external oracle
calls as parameters (none models an exception in the call).  The pure
stages cannot throw, so the outer catch-all branch of the source is
unreachable in the model. -/
def processComplete (req : ProcessRequest) (ocrOracle : Option (Str × ℚ))
    (hallucOracle : Option Bool) (summaryOracle : Option PatientSummary) :
    Output :=
  match validateInputFormat req.input_type req.data with
  | some e => .err ⟨strL "Input validation failed: " ++ e, none⟩
  | none =>
    match extractText req ocrOracle with
    | none => .err ⟨strL "Failed to extract text from input", none⟩
    | some ocrResult =>
      let normalizedTests := normalizeTests ocrResult.tests_raw req.data
      if normalizedTests.tests.length = 0 then
        .err ⟨strL "No valid medical tests could be normalized", none⟩
      else
        let combined :=
          min ocrResult.confidence normalizedTests.normalization_confidence
        match validateProcessing hallucOracle req.data ocrResult.tests_raw
            normalizedTests.tests combined with
        | .rejected e => .err e
        | .valid =>
          match summaryOracle with
          | none => .err ⟨strL "Failed to generate patient-friendly summary", none⟩
          | some ps =>
            .ok ⟨normalizedTests.tests, ps.summary, ps.explanations, combined⟩

/-! ## Batch route aggregation (registerRoutes, the batch endpoint)

Each report is processed sequentially; an item increments successful
exactly when its result status is ok, and failed otherwise (including
the per-item catch).  An outcome is modelled by the Boolean
"status was ok". -/

def batchSuccessful (outcomes : List Bool) : ℕ := outcomes.count true

def batchFailed (outcomes : List Bool) : ℕ := outcomes.count false

/-- The overall batch status string: completed when nothing failed, else
partial when anything succeeded, else failed. -/
def batchStatus (successful failed : ℕ) : Str :=
  if failed = 0 then strL "completed"
  else if 0 < successful then strL "partial_failure"
  else strL "failed"

/-- Whether a pipeline output is the guardrail rejection for the lower
test-count bound (reason: no valid medical tests detected in input). -/
def isNoTestsRejection : Output → Bool
  | .ok _ => false
  | .err e => decide (e.reason = lowerBoundReason)

/-! # Theorems -/

/-
The rational operations of Batteries are sealed against unfolding; the
concrete-input theorems below evaluate the embedded pipeline by
reduction, so reduction of rational arithmetic is re-enabled locally.
-/
attribute [local semireducible] Rat.add Rat.sub Rat.mul Rat.inv Rat.ofScientific

/-! ## Shared helper lemmas -/

theorem pow2Z_nonneg (e : ℤ) : 0 ≤ pow2Z e := by
  unfold pow2Z
  split_ifs
  · exact Nat.cast_nonneg _
  · exact div_nonneg zero_le_one (Nat.cast_nonneg _)

theorem floorQ_nonneg {y : ℚ} (h : 0 ≤ y) : 0 ≤ floorQ y := by
  unfold floorQ
  have h1 : 0 ≤ y.num := Rat.num_nonneg.mpr h
  have h2 : (0 : ℤ) ≤ (y.den : ℤ) := Int.ofNat_nonneg _
  exact Int.ediv_nonneg h1 h2

theorem flRound_nonneg {y : ℚ} (h : 0 ≤ y) : 0 ≤ flRound y := by
  unfold flRound
  have h1 := floorQ_nonneg h
  split_ifs <;> omega

theorem flPos_nonneg {a : ℚ} (h : 0 ≤ a) : 0 ≤ flPos a := by
  unfold flPos
  cases hf : (List.range 300).find?
      (fun k => a.num * 2 ^ 100 < 2 ^ (k + 1) * (a.den : ℤ)) with
  | none => exact h
  | some k =>
    refine mul_nonneg ?_ (pow2Z_nonneg _)
    have hr := flRound_nonneg (mul_nonneg h (pow2Z_nonneg (52 - ((k : ℤ) - 100))))
    exact_mod_cast hr

theorem fl_nonneg {x : ℚ} (h : 0 ≤ x) : 0 ≤ fl x := by
  unfold fl
  split_ifs with h0 h1
  · exact le_refl 0
  · exact flPos_nonneg (le_of_lt h1)
  · exact absurd (lt_of_le_of_ne h (Ne.symm h0)) h1

theorem fadd_nonneg {x y : ℚ} (hx : 0 ≤ x) (hy : 0 ≤ y) : 0 ≤ fadd x y :=
  fl_nonneg (add_nonneg hx hy)

theorem calculateTestConfidence_nonneg (rawTest : Str) (t : NormalizedTest)
    (originalInput : Str) :
    0 ≤ calculateTestConfidence rawTest t originalInput := by
  unfold calculateTestConfidence
  dsimp only
  have h7 : (0 : ℚ) ≤ fl (7 / 10) := fl_nonneg (by norm_num)
  have h15 : (0 : ℚ) ≤ fl (15 / 100) := fl_nonneg (by norm_num)
  have h10 : (0 : ℚ) ≤ fl (1 / 10) := fl_nonneg (by norm_num)
  have h5 : (0 : ℚ) ≤ fl (5 / 100) := fl_nonneg (by norm_num)
  refine le_min (by norm_num) ?_
  split_ifs
  · exact fadd_nonneg (fadd_nonneg (fadd_nonneg h7 h15) h10) h5
  · exact fadd_nonneg (fadd_nonneg h7 h10) h5
  · exact fadd_nonneg (fadd_nonneg h7 h15) h5
  · exact fadd_nonneg h7 h5
  · exact fadd_nonneg (fadd_nonneg h7 h15) h10
  · exact fadd_nonneg h7 h10
  · exact fadd_nonneg h7 h15
  · exact h7

theorem calculateTestConfidence_le (rawTest : Str) (t : NormalizedTest)
    (originalInput : Str) :
    calculateTestConfidence rawTest t originalInput ≤ 1 := by
  unfold calculateTestConfidence
  exact min_le_left _ _

/-! ## C5 -/

/-- C5: every confidence-producing function returns a value in the closed
unit interval, for every input: TextPreprocessor.calculateConfidence, the
per-test confidence of the normalizer, and the aggregate
normalization_confidence of normalizeTests. -/
theorem confidence_outputs_in_unit_interval :
    (∀ (originalText : Str) (extractedTests : List Str),
      0 ≤ calculateConfidence originalText extractedTests ∧
        calculateConfidence originalText extractedTests ≤ 1) ∧
    (∀ (rawTest : Str) (t : NormalizedTest) (originalInput : Str),
      0 ≤ calculateTestConfidence rawTest t originalInput ∧
        calculateTestConfidence rawTest t originalInput ≤ 1) ∧
    (∀ (rawTests : List Str) (originalInput : Str),
      0 ≤ (normalizeTests rawTests originalInput).normalization_confidence ∧
        (normalizeTests rawTests originalInput).normalization_confidence ≤ 1) := by
  refine ⟨fun originalText extractedTests => ?_,
    fun rawTest t originalInput =>
      ⟨calculateTestConfidence_nonneg rawTest t originalInput,
        calculateTestConfidence_le rawTest t originalInput⟩,
    fun rawTests originalInput => ?_⟩
  · unfold calculateConfidence
    dsimp only
    split_ifs
    · norm_num
    all_goals exact ⟨le_max_left _ _, max_le (by norm_num) (min_le_left _ _)⟩
  · unfold normalizeTests
    dsimp only
    exact ⟨le_max_left _ _, max_le (by norm_num) (min_le_left _ _)⟩

/-! ## C9 -/

set_option maxRecDepth 1000000 in
/-- Counterexample to the original C9 floor claim: three raw tests that
each normalize at the bare 0.7 base give a nonempty output whose
aggregate normalization_confidence is strictly below 0.7, because the
double-precision mean (0.7 + 0.7 + 0.7) / 3 rounds to
0.6999999999999998. -/
theorem normalization_confidence_floor_counterexample :
    (normalizeTests [strL "wbc 7500 /ul", strL "wbc 7500 /ul",
        strL "wbc 7500 /ul"] (strL "zzzz")).tests ≠ [] ∧
    ¬ ((7 : ℚ) / 10 ≤
      (normalizeTests [strL "wbc 7500 /ul", strL "wbc 7500 /ul",
        strL "wbc 7500 /ul"] (strL "zzzz")).normalization_confidence) := by
  exact ⟨by decide, by decide⟩

set_option maxRecDepth 1000000 in
/-- C9 (amended): the aggregate normalization_confidence is the IEEE-754
double mean of the per-test confidences, and rounding can pull it below
the 0.7 per-test base; for three raw tests normalizing at base
confidence against an input containing none of their names, values or
units, the aggregate is exactly 6305039478318693 / 2 ^ 53 =
0.6999999999999998 < 0.7, so the guardrail confidence floor on the
min-combined confidence is tripped from the normalization side whatever
the extraction-side confidence is. -/
theorem normalization_confidence_rounding :
    (normalizeTests [strL "wbc 7500 /ul", strL "wbc 7500 /ul",
        strL "wbc 7500 /ul"] (strL "zzzz")).tests ≠ [] ∧
    (normalizeTests [strL "wbc 7500 /ul", strL "wbc 7500 /ul",
        strL "wbc 7500 /ul"] (strL "zzzz")).normalization_confidence =
      6305039478318693 / 9007199254740992 ∧
    ∀ extractionConfidence : ℚ,
      min extractionConfidence
          (normalizeTests [strL "wbc 7500 /ul", strL "wbc 7500 /ul",
            strL "wbc 7500 /ul"] (strL "zzzz")).normalization_confidence <
        (7 : ℚ) / 10 := by
  refine ⟨by decide, by decide, fun extractionConfidence => ?_⟩
  have h : (normalizeTests [strL "wbc 7500 /ul", strL "wbc 7500 /ul",
      strL "wbc 7500 /ul"] (strL "zzzz")).normalization_confidence <
      (7 : ℚ) / 10 := by decide
  exact lt_of_le_of_lt (min_le_right _ _) h

/-! ## C3 -/

/-- C3: when the combined confidence passes the floor and both the upper
count bound and at least one biological-plausibility bound are violated,
validateProcessing reports the count-bound rejection, never the
plausibility one: the count rule short-circuits earlier in the fixed rule
order, whatever the hallucination oracle would say. -/
theorem guardrail_count_bound_shadows_plausibility (oracle : Option Bool)
    (originalInput : Str) (extractedTests : List Str)
    (normalizedTests : List NormalizedTest) (confidence : ℚ)
    (hconf : MIN_CONFIDENCE_THRESHOLD ≤ confidence)
    (hcount : MAX_TESTS_PER_REPORT < normalizedTests.length)
    (hplaus : ∃ t ∈ normalizedTests, t.value ≤ 0 ∨ hardBoundEntries t ≠ []) :
    validateProcessing oracle originalInput extractedTests normalizedTests confidence =
      .rejected ⟨tooManyReason normalizedTests.length,
        some (.tooMany normalizedTests.length MAX_TESTS_PER_REPORT)⟩ := by
  unfold validateProcessing
  rw [if_neg (not_lt.mpr hconf), if_pos hcount]

/-- Witness for C3: twenty-one copies of an implausible glucose result at
confidence 0.8 are rejected for the count, not for plausibility. -/
theorem guardrail_count_bound_shadows_plausibility_witness :
    MIN_CONFIDENCE_THRESHOLD ≤ (8 : ℚ) / 10 ∧
    MAX_TESTS_PER_REPORT <
      (List.replicate 21
        (⟨strL "Glucose", 15000, strL "mg/dL", .high, ⟨70, 100⟩⟩ : NormalizedTest)).length ∧
    (∃ t ∈ List.replicate 21
        (⟨strL "Glucose", 15000, strL "mg/dL", .high, ⟨70, 100⟩⟩ : NormalizedTest),
      t.value ≤ 0 ∨ hardBoundEntries t ≠ []) ∧
    validateProcessing (some true) (strL "report") []
      (List.replicate 21
        (⟨strL "Glucose", 15000, strL "mg/dL", .high, ⟨70, 100⟩⟩ : NormalizedTest))
      ((8 : ℚ) / 10) =
      .rejected ⟨tooManyReason 21, some (.tooMany 21 MAX_TESTS_PER_REPORT)⟩ :=
  ⟨by norm_num [MIN_CONFIDENCE_THRESHOLD], by decide, by decide,
    guardrail_count_bound_shadows_plausibility (some true) (strL "report") [] _ _
      (by norm_num [MIN_CONFIDENCE_THRESHOLD]) (by decide) (by decide)⟩

/-! ## C6 -/

theorem detectSuspicious_ne_nil_iff (tests : List NormalizedTest) :
    detectSuspiciousValues tests ≠ [] ↔
      ∃ u ∈ tests, u.value ≤ 0 ∨ hardBoundEntries u ≠ [] := by
  induction tests with
  | nil => simp [detectSuspiciousValues]
  | cons hd tl ih =>
    by_cases hv : hd.value ≤ 0
    · constructor
      · intro _
        exact ⟨hd, List.mem_cons_self hd tl, Or.inl hv⟩
      · intro _
        simp [detectSuspiciousValues, List.flatMap_cons, hv]
    · constructor
      · intro h
        simp only [detectSuspiciousValues, List.flatMap_cons, if_neg hv,
          List.nil_append, Ne, List.append_eq_nil, not_and_or] at h
        rcases h with h | h
        · exact ⟨hd, List.mem_cons_self hd tl, Or.inr h⟩
        · obtain ⟨u, hu, hp⟩ := ih.mp h
          exact ⟨u, List.mem_cons_of_mem hd hu, hp⟩
      · rintro ⟨u, hu, hp⟩
        simp only [detectSuspiciousValues, List.flatMap_cons, if_neg hv,
          List.nil_append, Ne, List.append_eq_nil, not_and_or]
        rcases List.mem_cons.mp hu with rfl | hu2
        · rcases hp with hp | hp
          · exact absurd hp hv
          · exact Or.inl hp
        · exact Or.inr (ih.mpr ⟨u, hu2, hp⟩)

/-- C6: a single Glucose result whose value exceeds 1000, at passing
confidence and count and with an affirmative hallucination oracle, is
rejected by the plausibility rule with a details entry whose reason
names the biologically possible range 10-1000 mg/dL; in general the
plausibility rule fires exactly when some value is nonpositive or
violates a test-specific hard bound. -/
theorem glucose_plausibility_rejection (originalInput : Str)
    (extractedTests : List Str) (t : NormalizedTest) (confidence : ℚ)
    (hconf : MIN_CONFIDENCE_THRESHOLD ≤ confidence)
    (hname : t.name = strL "Glucose")
    (hval : 1000 < t.value) :
    validateProcessing (some true) originalInput extractedTests [t] confidence =
      .rejected ⟨strL "suspicious or impossible test values detected",
        some (.suspicious
          [⟨t.name, t.value,
            strL "value outside biologically possible range (10-1000 mg/dL)"⟩]
          confidence)⟩ ∧
    strIncludes (strL "value outside biologically possible range (10-1000 mg/dL)")
      (strL "biologically possible range") = true ∧
    ∀ tests : List NormalizedTest,
      detectSuspiciousValues tests ≠ [] ↔
        ∃ u ∈ tests, u.value ≤ 0 ∨ hardBoundEntries u ≠ [] := by
  refine ⟨?_, by decide, detectSuspicious_ne_nil_iff⟩
  have hbe : hardBoundEntries t =
      [⟨t.name, t.value,
        strL "value outside biologically possible range (10-1000 mg/dL)"⟩] := by
    unfold hardBoundEntries
    rw [hname]
    rw [if_neg (by decide), if_neg (by decide), if_pos (by decide),
      if_pos (Or.inl hval)]
  have hsusp : detectSuspiciousValues [t] =
      [⟨t.name, t.value,
        strL "value outside biologically possible range (10-1000 mg/dL)"⟩] := by
    unfold detectSuspiciousValues
    rw [List.flatMap_cons, List.flatMap_nil, List.append_nil,
      if_neg (by intro hle; exact absurd hle (not_le.mpr (by linarith))),
      List.nil_append, hbe]
  unfold validateProcessing
  rw [if_neg (not_lt.mpr hconf),
    if_neg (by norm_num [MAX_TESTS_PER_REPORT]),
    if_neg (by norm_num [MIN_TESTS_PER_REPORT])]
  dsimp only
  rw [hsusp, if_pos (by norm_num)]

/-- Witness for C6 at the Scenario B test record. -/
theorem glucose_plausibility_rejection_witness :
    MIN_CONFIDENCE_THRESHOLD ≤ (9 : ℚ) / 10 ∧
    (⟨strL "Glucose", 15000, strL "mg/dL", .high, ⟨70, 100⟩⟩ : NormalizedTest).name =
      strL "Glucose" ∧
    (1000 : ℚ) <
      (⟨strL "Glucose", 15000, strL "mg/dL", .high, ⟨70, 100⟩⟩ : NormalizedTest).value ∧
    validateProcessing (some true) (strL "Glucose 15000 mg/dL") []
      [⟨strL "Glucose", 15000, strL "mg/dL", .high, ⟨70, 100⟩⟩] ((9 : ℚ) / 10) =
      .rejected ⟨strL "suspicious or impossible test values detected",
        some (.suspicious
          [⟨strL "Glucose", 15000,
            strL "value outside biologically possible range (10-1000 mg/dL)"⟩]
          ((9 : ℚ) / 10))⟩ :=
  ⟨by norm_num [MIN_CONFIDENCE_THRESHOLD], rfl, by norm_num,
    (glucose_plausibility_rejection (strL "Glucose 15000 mg/dL") []
      (⟨strL "Glucose", 15000, strL "mg/dL", .high, ⟨70, 100⟩⟩ : NormalizedTest)
      ((9 : ℚ) / 10) (by norm_num [MIN_CONFIDENCE_THRESHOLD]) rfl (by norm_num)).1⟩

/-! ## C8 -/

/-- C8: the aggregated batch status is completed exactly when no item
failed, failed exactly when no item succeeded and at least one failed,
and partial otherwise; the successful and failed counters sum to the
number of reports processed. -/
theorem batch_aggregation (outcomes : List Bool) :
    batchSuccessful outcomes + batchFailed outcomes = outcomes.length ∧
    (batchStatus (batchSuccessful outcomes) (batchFailed outcomes) =
        strL "completed" ↔ ∀ b ∈ outcomes, b = true) ∧
    (batchStatus (batchSuccessful outcomes) (batchFailed outcomes) =
        strL "failed" ↔
      ((∀ b ∈ outcomes, b = false) ∧ ∃ b ∈ outcomes, b = false)) ∧
    (batchStatus (batchSuccessful outcomes) (batchFailed outcomes) =
        strL "partial_failure" ↔
      ((∃ b ∈ outcomes, b = true) ∧ ∃ b ∈ outcomes, b = false)) := by
  have hsum : batchSuccessful outcomes + batchFailed outcomes = outcomes.length := by
    unfold batchSuccessful batchFailed
    induction outcomes with
    | nil => rfl
    | cons hd tl ih =>
      cases hd <;> simp [List.count_cons, ih] <;> omega
  have hfail0 : batchFailed outcomes = 0 ↔ ∀ b ∈ outcomes, b = true := by
    unfold batchFailed
    rw [List.count_eq_zero]
    constructor
    · intro h b hb
      cases hof : b
      · exact absurd (hof ▸ hb) h
      · rfl
    · intro h hmem
      exact absurd (h false hmem) (by simp)
  have hsucc0 : 0 < batchSuccessful outcomes ↔ ∃ b ∈ outcomes, b = true := by
    unfold batchSuccessful
    rw [List.count_pos_iff]
    exact ⟨fun h => ⟨true, h, rfl⟩, fun ⟨b, hb, he⟩ => he ▸ hb⟩
  have hfailpos : batchFailed outcomes ≠ 0 ↔ ∃ b ∈ outcomes, b = false := by
    unfold batchFailed
    rw [← Nat.pos_iff_ne_zero, List.count_pos_iff]
    exact ⟨fun h => ⟨false, h, rfl⟩, fun ⟨b, hb, he⟩ => he ▸ hb⟩
  refine ⟨hsum, ?_, ?_, ?_⟩
  · unfold batchStatus
    by_cases hf : batchFailed outcomes = 0
    · rw [if_pos hf]
      exact ⟨fun _ => hfail0.mp hf, fun _ => rfl⟩
    · rw [if_neg hf]
      constructor
      · intro h
        by_cases hs : 0 < batchSuccessful outcomes
        · rw [if_pos hs] at h
          exact absurd h (by decide)
        · rw [if_neg hs] at h
          exact absurd h (by decide)
      · intro h
        exact absurd (hfail0.mpr h) hf
  · unfold batchStatus
    by_cases hf : batchFailed outcomes = 0
    · rw [if_pos hf]
      constructor
      · intro h
        exact absurd h (by decide)
      · rintro ⟨-, b, hb, he⟩
        have := hfail0.mp hf b hb
        rw [he] at this
        exact absurd this (by simp)
    · rw [if_neg hf]
      by_cases hs : 0 < batchSuccessful outcomes
      · rw [if_pos hs]
        constructor
        · intro h
          exact absurd h (by decide)
        · rintro ⟨hall, -⟩
          obtain ⟨b, hb, he⟩ := hsucc0.mp hs
          have := hall b hb
          rw [he] at this
          exact absurd this (by simp)
      · rw [if_neg hs]
        constructor
        · intro _
          refine ⟨?_, hfailpos.mp hf⟩
          intro b hb
          cases hbv : b with
          | false => rfl
          | true => exact absurd (hsucc0.mpr ⟨b, hb, hbv⟩) hs
        · intro _
          rfl
  · unfold batchStatus
    by_cases hf : batchFailed outcomes = 0
    · rw [if_pos hf]
      constructor
      · intro h
        exact absurd h (by decide)
      · rintro ⟨-, b, hb, he⟩
        have := hfail0.mp hf b hb
        rw [he] at this
        exact absurd this (by simp)
    · rw [if_neg hf]
      by_cases hs : 0 < batchSuccessful outcomes
      · rw [if_pos hs]
        exact ⟨fun _ => ⟨hsucc0.mp hs, hfailpos.mp hf⟩, fun _ => rfl⟩
      · rw [if_neg hs]
        constructor
        · intro h
          exact absurd h (by decide)
        · rintro ⟨hsucc, -⟩
          exact absurd (hsucc0.mpr hsucc) hs

/-! ## C10 -/

theorem append_ne_of_head (c d : Char) (l m e : Str) (hne : c ≠ d) :
    (c :: l) ++ e ≠ d :: m := by
  intro h
  rw [List.cons_append] at h
  injection h with h1 h2
  exact hne h1

/-- Any rejection produced by validateProcessing on a nonempty
normalized-test list carries a reason different from the lower-count
rejection reason. -/
theorem validateProcessing_reason_ne_lower (oracle : Option Bool)
    (originalInput : Str) (extractedTests : List Str)
    (tests : List NormalizedTest) (confidence : ℚ)
    (hne : tests.length ≠ 0) (e : ErrOut)
    (h : validateProcessing oracle originalInput extractedTests tests confidence =
      .rejected e) :
    e.reason ≠ lowerBoundReason := by
  unfold validateProcessing at h
  by_cases h1 : confidence < MIN_CONFIDENCE_THRESHOLD
  · rw [if_pos h1] at h
    injection h with he
    rw [← he]
    exact append_ne_of_head 'c' 'n' _ _ _ (by decide)
  · rw [if_neg h1] at h
    by_cases h2 : MAX_TESTS_PER_REPORT < tests.length
    · rw [if_pos h2] at h
      injection h with he
      rw [← he]
      exact append_ne_of_head 't' 'n' _ _ _ (by decide)
    · rw [if_neg h2] at h
      by_cases h3 : tests.length < MIN_TESTS_PER_REPORT
      · simp only [MIN_TESTS_PER_REPORT] at h3
        omega
      · rw [if_neg h3] at h
        cases oracle with
        | none =>
          injection h with he
          rw [← he]
          exact (by decide : strL "validation system error" ≠ lowerBoundReason)
        | some b =>
          cases b with
          | false =>
            injection h with he
            rw [← he]
            exact (by decide :
              strL "hallucinated tests not present in input" ≠ lowerBoundReason)
          | true =>
            dsimp only at h
            by_cases h4 : 0 < (detectSuspiciousValues tests).length
            · rw [if_pos h4] at h
              injection h with he
              rw [← he]
              exact (by decide :
                strL "suspicious or impossible test values detected" ≠ lowerBoundReason)
            · rw [if_neg h4] at h
              exact Verdict.noConfusion h

/-- C10: the lower-count-bound guardrail rejection is unreachable from
processComplete: a normalization result with zero tests terminates the
pipeline earlier with its own reason, so validateProcessing is only ever
invoked on a nonempty list and no pipeline output carries the reason
string of that rejection. -/
theorem no_tests_rejection_unreachable (req : ProcessRequest)
    (ocrOracle : Option (Str × ℚ)) (hallucOracle : Option Bool)
    (summaryOracle : Option PatientSummary) :
    isNoTestsRejection
      (processComplete req ocrOracle hallucOracle summaryOracle) = false := by
  unfold processComplete
  cases hv : validateInputFormat req.input_type req.data with
  | some e0 =>
    unfold isNoTestsRejection
    exact decide_eq_false (append_ne_of_head 'I' 'n' _ _ _ (by decide))
  | none =>
    cases hex : extractText req ocrOracle with
    | none => rfl
    | some ocrResult =>
      dsimp only
      by_cases hlen : (normalizeTests ocrResult.tests_raw req.data).tests.length = 0
      · rw [if_pos hlen]
        rfl
      · rw [if_neg hlen]
        cases hval : validateProcessing hallucOracle req.data ocrResult.tests_raw
            (normalizeTests ocrResult.tests_raw req.data).tests
            (min ocrResult.confidence
              (normalizeTests ocrResult.tests_raw req.data).normalization_confidence) with
        | valid =>
          cases summaryOracle with
          | none => rfl
          | some ps => rfl
        | rejected e =>
          unfold isNoTestsRejection
          exact decide_eq_false
            (validateProcessing_reason_ne_lower hallucOracle req.data
              ocrResult.tests_raw _ _ hlen e hval)

/-! ## C4 -/

theorem lookup_mem {α β : Type} [BEq α] {l : List (α × β)} {k : α} {v : β}
    (h : List.lookup k l = some v) : ∃ pr ∈ l, pr.2 = v := by
  induction l with
  | nil => simp [List.lookup] at h
  | cons hd tl ih =>
    obtain ⟨a, b⟩ := hd
    rw [List.lookup] at h
    cases hc : k == a with
    | true =>
      rw [hc] at h
      dsimp only at h
      injection h with hv
      exact ⟨(a, b), List.mem_cons_self _ _, hv⟩
    | false =>
      rw [hc] at h
      dsimp only at h
      obtain ⟨pr, hm, he⟩ := ih h
      exact ⟨pr, List.mem_cons_of_mem _ hm, he⟩

/-- Every reference-range entry of the table has its default low bound at
or below its default high bound. -/
theorem refRange_wf (nm : Str) (ri : RefInfo)
    (h : List.lookup nm referenceRanges = some ri) :
    ri.dflt.low ≤ ri.dflt.high := by
  obtain ⟨pr, hmem, he⟩ := lookup_mem h
  rw [← he]
  fin_cases hmem <;> norm_num [mkRef]

/-- C4: for a raw test string without an explicit status token that
normalizeIndividualTest accepts, the status is low exactly when the value
is below the reference low bound, high exactly when above the high bound,
and normal otherwise; values equal to either bound classify as normal. -/
theorem value_status_classification (rawTest : Str) (p : ParsedTest)
    (t : NormalizedTest)
    (hp : parseTestString (trimWS rawTest) = some p)
    (hst : p.statusTok = none)
    (ht : normalizeIndividualTest rawTest = some t) :
    (t.status = Status.low ↔ t.value < t.ref_range.low) ∧
    (t.status = Status.high ↔ t.ref_range.high < t.value) ∧
    ((t.value = t.ref_range.low ∨ t.value = t.ref_range.high) →
      t.status = Status.normal) := by
  unfold normalizeIndividualTest at ht
  rw [hp] at ht
  dsimp only at ht
  cases hn : normalizeTestName (trimWS p.name) with
  | none => rw [hn] at ht; exact absurd ht (by simp)
  | some testName =>
    rw [hn] at ht
    dsimp only at ht
    cases hv : parseFloatQ (p.value.filter (· ≠ ',')) with
    | none => rw [hv] at ht; exact absurd ht (by simp)
    | some value =>
      rw [hv] at ht
      dsimp only at ht
      cases hr : List.lookup testName referenceRanges with
      | none => rw [hr] at ht; exact absurd ht (by simp)
      | some referenceInfo =>
        rw [hr] at ht
        rw [hst] at ht
        dsimp only at ht
        have hwf := refRange_wf testName referenceInfo hr
        injection ht with ht2
        rw [← ht2]
        dsimp only
        by_cases hlt : value < referenceInfo.dflt.low
        · rw [if_pos hlt]
          refine ⟨⟨fun _ => hlt, fun _ => rfl⟩,
            ⟨fun hc => absurd hc (by decide), fun hgt => absurd hgt (by linarith)⟩,
            fun hc => ?_⟩
          rcases hc with hc | hc <;> linarith
        · rw [if_neg hlt]
          by_cases hgt : referenceInfo.dflt.high < value
          · rw [if_pos hgt]
            refine ⟨⟨fun hc => absurd hc (by decide), fun hl => absurd hl hlt⟩,
              ⟨fun _ => hgt, fun _ => rfl⟩, fun hc => ?_⟩
            rcases hc with hc | hc <;> linarith
          · rw [if_neg hgt]
            exact ⟨⟨fun hc => absurd hc (by decide), fun hl => absurd hl hlt⟩,
              ⟨fun hc => absurd hc (by decide), fun hh => absurd hh hgt⟩,
              fun _ => rfl⟩

/-- Witness for C4: a WBC value below the reference low bound. -/
theorem value_status_classification_witness :
    parseTestString (trimWS (strL "wbc 3000 /uL")) =
      some ⟨strL "wbc", strL "3000", strL "/uL", none⟩ ∧
    (⟨strL "wbc", strL "3000", strL "/uL", none⟩ : ParsedTest).statusTok = none ∧
    normalizeIndividualTest (strL "wbc 3000 /uL") =
      some ⟨strL "WBC", 3000, strL "/uL", .low, ⟨4000, 11000⟩⟩ ∧
    ((⟨strL "WBC", 3000, strL "/uL", .low, ⟨4000, 11000⟩⟩ : NormalizedTest).status =
        Status.low ↔
      (⟨strL "WBC", 3000, strL "/uL", .low, ⟨4000, 11000⟩⟩ : NormalizedTest).value <
        (⟨strL "WBC", 3000, strL "/uL", .low, ⟨4000, 11000⟩⟩ : NormalizedTest).ref_range.low) :=
  ⟨by decide, rfl, by decide,
    (value_status_classification (strL "wbc 3000 /uL")
      ⟨strL "wbc", strL "3000", strL "/uL", none⟩
      ⟨strL "WBC", 3000, strL "/uL", .low, ⟨4000, 11000⟩⟩
      (by decide) rfl (by decide)).1⟩

/-! ## C2 -/

/-- C2 counterexample: the raw test string with explicit status token hl
refutes the claimed order.  The token contains the letter h, so the
claimed rule (high checked first) would classify it high, but
normalizeIndividualTest checks the low rule first and returns low. -/
theorem status_token_order_counterexample :
    parseTestString (trimWS (strL "hemoglobin 14.5 g/dL (hl)")) =
      some ⟨strL "hemoglobin", strL "14.5", strL "g/dL", some (strL "hl")⟩ ∧
    strIncludes (trimWS (lowerStr (strL "hl"))) (strL "h") = true ∧
    (normalizeIndividualTest (strL "hemoglobin 14.5 g/dL (hl)")).map
        NormalizedTest.status = some Status.low := by
  refine ⟨by decide, by decide, ?_⟩
  decide

/-- C2 amended: for a raw test string carrying an explicit status token
that normalizeIndividualTest accepts, the status is classified by
substring tests with the low rule first: a token containing low or the
letter l yields low; otherwise a token containing high or the letter h
yields high; any other token yields normal. -/
theorem status_token_classification (rawTest : Str) (p : ParsedTest)
    (st : Str) (t : NormalizedTest)
    (hp : parseTestString (trimWS rawTest) = some p)
    (hst : p.statusTok = some st)
    (ht : normalizeIndividualTest rawTest = some t) :
    t.status =
      (if strIncludes (trimWS (lowerStr st)) (strL "low") ||
          strIncludes (trimWS (lowerStr st)) (strL "l") then Status.low
       else if strIncludes (trimWS (lowerStr st)) (strL "high") ||
          strIncludes (trimWS (lowerStr st)) (strL "h") then Status.high
       else Status.normal) := by
  unfold normalizeIndividualTest at ht
  rw [hp] at ht
  dsimp only at ht
  cases hn : normalizeTestName (trimWS p.name) with
  | none => rw [hn] at ht; exact absurd ht (by simp)
  | some testName =>
    rw [hn] at ht
    dsimp only at ht
    cases hv : parseFloatQ (p.value.filter (· ≠ ',')) with
    | none => rw [hv] at ht; exact absurd ht (by simp)
    | some value =>
      rw [hv] at ht
      dsimp only at ht
      cases hr : List.lookup testName referenceRanges with
      | none => rw [hr] at ht; exact absurd ht (by simp)
      | some referenceInfo =>
        rw [hr] at ht
        rw [hst] at ht
        dsimp only at ht
        injection ht with ht2
        rw [← ht2]

/-- Witness for the amended C2 at the counterexample token. -/
theorem status_token_classification_witness :
    parseTestString (trimWS (strL "hemoglobin 14.5 g/dL (hl)")) =
      some ⟨strL "hemoglobin", strL "14.5", strL "g/dL", some (strL "hl")⟩ ∧
    (⟨strL "hemoglobin", strL "14.5", strL "g/dL",
        some (strL "hl")⟩ : ParsedTest).statusTok = some (strL "hl") ∧
    normalizeIndividualTest (strL "hemoglobin 14.5 g/dL (hl)") =
      some ⟨strL "Hemoglobin", (29 : ℚ) / 2, strL "g/dL", .low, ⟨12, 16⟩⟩ ∧
    (⟨strL "Hemoglobin", (29 : ℚ) / 2, strL "g/dL", .low,
        ⟨12, 16⟩⟩ : NormalizedTest).status =
      (if strIncludes (trimWS (lowerStr (strL "hl"))) (strL "low") ||
          strIncludes (trimWS (lowerStr (strL "hl"))) (strL "l") then Status.low
       else if strIncludes (trimWS (lowerStr (strL "hl"))) (strL "high") ||
          strIncludes (trimWS (lowerStr (strL "hl"))) (strL "h") then Status.high
       else Status.normal) :=
  ⟨by decide, rfl, by decide,
    status_token_classification (strL "hemoglobin 14.5 g/dL (hl)")
      ⟨strL "hemoglobin", strL "14.5", strL "g/dL", some (strL "hl")⟩
      (strL "hl")
      ⟨strL "Hemoglobin", (29 : ℚ) / 2, strL "g/dL", .low, ⟨12, 16⟩⟩
      (by decide) rfl (by decide)⟩

/-! ## C1 -/

set_option maxRecDepth 1000000 in
/-- C1: on the Scenario A input, the extraction-then-normalization path
(preprocessText, extractTestsFromText, normalizeTests) produces exactly
two normalized tests, both with status normal, and a
normalization_confidence of at least 0.7. -/
theorem scenarioA_two_normal_tests :
    (normalizeTests
      (extractTestsFromText (preprocessText
        (strL "Hemoglobin 14.5 g/dL (Normal), WBC 7500 /uL (Normal)")))
      (strL "Hemoglobin 14.5 g/dL (Normal), WBC 7500 /uL (Normal)")).tests.length = 2 ∧
    (∀ t ∈ (normalizeTests
      (extractTestsFromText (preprocessText
        (strL "Hemoglobin 14.5 g/dL (Normal), WBC 7500 /uL (Normal)")))
      (strL "Hemoglobin 14.5 g/dL (Normal), WBC 7500 /uL (Normal)")).tests,
      t.status = Status.normal) ∧
    (7 : ℚ) / 10 ≤
      (normalizeTests
        (extractTestsFromText (preprocessText
          (strL "Hemoglobin 14.5 g/dL (Normal), WBC 7500 /uL (Normal)")))
        (strL "Hemoglobin 14.5 g/dL (Normal), WBC 7500 /uL (Normal)")).normalization_confidence := by
  have h : normalizeTests
      (extractTestsFromText (preprocessText
        (strL "Hemoglobin 14.5 g/dL (Normal), WBC 7500 /uL (Normal)")))
      (strL "Hemoglobin 14.5 g/dL (Normal), WBC 7500 /uL (Normal)") =
      ⟨[⟨strL "Hemoglobin", (29 : ℚ) / 2, strL "g", Status.normal, ⟨12, 16⟩⟩,
        ⟨strL "WBC", 7500, strL "/", Status.normal, ⟨4000, 11000⟩⟩], 1⟩ := by
    decide
  rw [h]
  refine ⟨rfl, ?_, by norm_num⟩
  intro t ht
  fin_cases ht <;> rfl

end MedPipeline
